import Mathlib

/-!
Verification of the filtering-and-aggregation core of the sports-record-tracker
dashboard (src/app.py). The pandas DataFrame is embedded as a list of records;
tri-state boolean columns ("Yes"/"No"/"Unknown" mapped to True/False/None in the
source) are embedded as Option Bool with none standing for the missing value
(None/NaN); nullable numeric columns as Option Rat.
-/

namespace TrackApp

/-- One row of the combined DataFrame df (src/app.py line 12), after the
categorical-to-tri-state normalization of lines 27-28. Field names follow the
column names used by the source. -/
structure Record where
  competitor : Option String
  Sex : String
  Discipline : String
  Nationality : String
  mark_numeric : Option ℚ
  Probability_World_Record_Breaker : Option ℚ
  Predicted_World_Record_Breaker : Option Bool
  World_Record_Correct : Option Bool
  Actual_World_Record_Breaker : Option Bool
  Actual_National_Record_Breaker : Option Bool
  Actual_Personal_Best_Breaker : Option Bool
deriving DecidableEq

/-- The sidebar filter state (src/app.py lines 37-49): a text input
(default "") and three multiselect lists. -/
structure Criteria where
  search_name : String
  selected_sex : List String
  selected_discipline : List String
  selected_nationality : List String
deriving DecidableEq

/-- Embeds the per-cell effect of df[col].map on the dict sending "Yes" to True,
"No" to False and "Unknown" to None (src/app.py line 28). pandas Series.map
sends every key absent from the dict to NaN, so any literal other than
"Yes"/"No" is mapped to the missing value none, exactly like "Unknown". -/
def normalizeCell (s : String) : Option Bool :=
  if s = "Yes" then some true
  else if s = "No" then some false
  else none

/-- Embeds df[col].map applied to a whole column (src/app.py lines 27-28). -/
def normalizeColumn (xs : List String) : List (Option Bool) :=
  xs.map normalizeCell

/-- A token of the regular-expression fragment needed to model
Series.str.contains (src/app.py line 62), which uses regex matching by default:
an ordinary character, or the dot metacharacter matching any character. -/
inductive RTok where
  | lit (c : Char)
  | dot
deriving DecidableEq

/-- Whether one regex token matches one character, case-insensitively
(the source passes case=False, i.e. re.IGNORECASE). -/
def tokMatches (t : RTok) (c : Char) : Bool :=
  match t with
  | RTok.dot => true
  | RTok.lit a => a.toLower == c.toLower

/-- Embeds the compilation of the search text into a regex pattern, restricted
to the fragment where every character of the text is either the dot
metacharacter or an ordinary (non-special) character. -/
def compilePat (pat : String) : List RTok :=
  pat.data.map (fun c => if c = '.' then RTok.dot else RTok.lit c)

/-- Whether the pattern matches a prefix of the text (re.match semantics at a
fixed position, for the quantifier-free fragment). -/
def matchHere : List RTok → List Char → Bool
  | [], _ => true
  | _ :: _, [] => false
  | t :: ts, c :: cs => tokMatches t c && matchHere ts cs

/-- Whether the pattern matches at some position of the text: re.search
semantics, which is what Series.str.contains evaluates per cell. -/
def reSearch (p : List RTok) : List Char → Bool
  | [] => matchHere p []
  | c :: cs => matchHere p (c :: cs) || reSearch p cs

/-- Embeds filtered_df.competitor.str.contains(search_name, case=False,
na=False) for one cell (src/app.py line 62): a missing competitor value yields
False (na=False); otherwise the search text is used as a case-insensitive
regular expression searched anywhere in the cell. -/
def str_contains (pat : String) (x : Option String) : Bool :=
  match x with
  | none => false
  | some s => reSearch (compilePat pat) s.data

/-- Embeds the filter pipeline of src/app.py lines 52-62: a conjunctive
Sex/Discipline mask, then a Nationality mask applied only when the selection is
non-empty (Python truthiness of the list), then the name-search mask applied
only when the search text is non-empty (Python truthiness of the string). -/
def filtered_df (df : List Record) (c : Criteria) : List Record :=
  let fd1 := df.filter (fun r =>
    c.selected_sex.contains r.Sex && c.selected_discipline.contains r.Discipline)
  let fd2 := if c.selected_nationality = [] then fd1
    else fd1.filter (fun r => c.selected_nationality.contains r.Nationality)
  if c.search_name = "" then fd2
  else fd2.filter (fun r => str_contains c.search_name r.competitor)

/-- The conjunction of the active row predicates of the pipeline, as one
boolean function (used to relate the staged pipeline to a single filter). -/
def rowPred (c : Criteria) (r : Record) : Bool :=
  c.selected_sex.contains r.Sex && c.selected_discipline.contains r.Discipline
    && (if c.selected_nationality = [] then true
        else c.selected_nationality.contains r.Nationality)
    && (if c.search_name = "" then true
        else str_contains c.search_name r.competitor)

theorem filtered_df_eq_filter (df : List Record) (c : Criteria) :
    filtered_df df c = df.filter (rowPred c) := by
  unfold filtered_df rowPred
  by_cases hn : c.selected_nationality = [] <;>
    by_cases hs : c.search_name = "" <;>
      simp [hn, hs, List.filter_filter, Bool.and_assoc, Bool.and_comm, Bool.and_left_comm]

/-- Embeds Series.sum(skipna=True) over a tri-state boolean column
(src/app.py lines 87, 91, 221, 229, 236, 244): True counts as 1, False as 0,
and the missing value is skipped, so the sum is the number of true cells. -/
def sum_skipna (xs : List (Option Bool)) : Nat :=
  xs.foldr (fun x acc => match x with | some true => acc + 1 | _ => acc) 0

/-- Embeds Series.mean() over a nullable numeric column (src/app.py lines 79,
83): missing values are skipped; the mean of an empty or all-missing column is
the missing sentinel NaN, embedded as none. -/
def mean_skipna (xs : List (Option ℚ)) : Option ℚ :=
  let vs := xs.filterMap id
  if vs = [] then none
  else some (vs.sum / (vs.length : ℚ))

/-- The five scalar metrics of the Key Metrics block (src/app.py lines 71-92),
named after the source variables. -/
structure KeyMetrics where
  total_records : Nat
  avg_mark : Option ℚ
  avg_prob : Option ℚ
  pred_world_count : Nat
  actual_world_count : Nat
deriving DecidableEq

/-- Embeds the Key Metrics block (src/app.py lines 71-92). The whole block is
guarded by `if not filtered_df.empty:`, so on an empty subset no metric is
computed at all, embedded as none. -/
def keyMetrics (fdf : List Record) : Option KeyMetrics :=
  if fdf = [] then none
  else some
    { total_records := fdf.length
      avg_mark := mean_skipna (fdf.map (fun r => r.mark_numeric))
      avg_prob := mean_skipna (fdf.map (fun r => r.Probability_World_Record_Breaker))
      pred_world_count := sum_skipna (fdf.map (fun r => r.Predicted_World_Record_Breaker))
      actual_world_count := sum_skipna (fdf.map (fun r => r.Actual_World_Record_Breaker)) }

/-- Embeds the Actual National Record Breakers breakdown (src/app.py lines
227-232): drop the rows whose flag is missing; if nothing remains report the
sentinel "N/A" (none), otherwise the sum of the remaining booleans. -/
def nat_yes_count (fdf : List Record) : Option Nat :=
  let nat_acc_df := fdf.filter (fun r => r.Actual_National_Record_Breaker.isSome)
  if nat_acc_df = [] then none
  else some (sum_skipna (nat_acc_df.map (fun r => r.Actual_National_Record_Breaker)))

/-- Embeds the Actual Personal Best Breakers breakdown (src/app.py lines
242-247), same dropna-then-sum-or-N/A shape as nat_yes_count. -/
def pb_yes_count (fdf : List Record) : Option Nat :=
  let pb_acc_df := fdf.filter (fun r => r.Actual_Personal_Best_Breaker.isSome)
  if pb_acc_df = [] then none
  else some (sum_skipna (pb_acc_df.map (fun r => r.Actual_Personal_Best_Breaker)))

/-- Modelled from the spec: src/app.py contains no accuracy computation (no
line compares a predicted column against an actual column), but the spec's
Aggregator contract (section 4.3) defines accuracy(predicted_column,
actual_column) as restricted to rows whose actual value is not unknown, equal
to (number of rows where predicted equals actual) / (number of such rows)
times 100, with a "not available" sentinel (none) when that denominator is
zero. -/
def accuracy (rows : List Record) (pred act : Record → Option Bool) : Option ℚ :=
  let valid := rows.filter (fun r => (act r).isSome)
  if valid = [] then none
  else some ((((valid.filter (fun r => pred r == act r)).length : ℚ)
      / (valid.length : ℚ)) * 100)

/-- Embeds the sort key of sort_values('mark_numeric', ascending=True)
(src/app.py lines 256, 261): ascending on the numeric value, with missing
values placed last (pandas default na_position='last'). -/
def markLE (a b : Record) : Bool :=
  match a.mark_numeric, b.mark_numeric with
  | some x, some y => decide (x ≤ y)
  | some _, none => true
  | none, some _ => false
  | none, none => true

/-- Embeds the sort key of sort_values('Probability_World_Record_Breaker',
ascending=False) (src/app.py line 251): descending on the probability, with
missing values placed last (pandas default na_position='last'). -/
def probGE (a b : Record) : Bool :=
  match a.Probability_World_Record_Breaker, b.Probability_World_Record_Breaker with
  | some x, some y => decide (y ≤ x)
  | some _, none => true
  | none, some _ => false
  | none, none => true

/-- Embeds the boolean-mask step filtered_df[filtered_df[flag] == True]
shared by the three ranked tables (src/app.py lines 251, 256, 261): only the
rows whose tri-state flag is exactly True qualify (False and missing both
compare unequal to True). -/
def qualifying (flag : Record → Option Bool) (fdf : List Record) : List Record :=
  fdf.filter (fun r => flag r == some true)

/-- Embeds the sort_values step of the ranked tables as a relation, because
the source calls sort_values with the default kind (quicksort), whose order
among rows with equal keys is implementation-defined: all pandas guarantees
is that the result is a permutation of the input that is sorted by the key.
out is one admissible result of sorting l by le. -/
def sortValuesSpec (le : Record → Record → Bool) (l out : List Record) : Prop :=
  l.Perm out ∧ out.Pairwise (fun a b => le a b = true)

/-- Embeds the full filter-sort-head pipeline of a ranked table (src/app.py
lines 251, 256, 261) as a relation: out is one admissible value of
filtered_df[filtered_df[flag] == True].sort_values(key).head(n), i.e. the
first n rows of some admissible sort of the qualifying rows. -/
def sortHeadSpec (flag : Record → Option Bool) (le : Record → Record → Bool)
    (n : Nat) (fdf out : List Record) : Prop :=
  ∃ s : List Record, sortValuesSpec le (qualifying flag fdf) s ∧ out = s.take n

/-- A store row whose mark ties with recT2's; only the competitor differs. -/
def recT1 : Record :=
  { competitor := some "T1", Sex := "Men", Discipline := "100m",
    Nationality := "USA", mark_numeric := some (10 : ℚ),
    Probability_World_Record_Breaker := some (1 / 2 : ℚ),
    Predicted_World_Record_Breaker := some true,
    World_Record_Correct := some true,
    Actual_World_Record_Breaker := some false,
    Actual_National_Record_Breaker := some true,
    Actual_Personal_Best_Breaker := some true }

/-- A store row whose mark ties with recT1's; only the competitor differs. -/
def recT2 : Record :=
  { competitor := some "T2", Sex := "Men", Discipline := "100m",
    Nationality := "USA", mark_numeric := some (10 : ℚ),
    Probability_World_Record_Breaker := some (1 / 2 : ℚ),
    Predicted_World_Record_Breaker := some true,
    World_Record_Correct := some true,
    Actual_World_Record_Breaker := some false,
    Actual_National_Record_Breaker := some true,
    Actual_Personal_Best_Breaker := some true }

/-- Case-insensitive "needle is a prefix of haystack" on character lists,
written from the spec's words for comparison with the code's regex search. -/
def isPrefixCI : List Char → List Char → Bool
  | [], _ => true
  | _ :: _, [] => false
  | a :: as, b :: bs => (a.toLower == b.toLower) && isPrefixCI as bs

/-- Case-insensitive substring containment on character lists, written from
the spec's words ("row kept iff competitor contains the substring,
case-insensitively") for comparison with the code's regex search. -/
def substrCI (needle : List Char) : List Char → Bool
  | [] => isPrefixCI needle []
  | c :: cs => isPrefixCI needle (c :: cs) || substrCI needle cs

/-- The characters Python's re module treats as special; search texts avoiding
all of them are the ones on which regex search and literal substring search
can be compared. -/
def regexSpecials : List Char :=
  ['.', '^', '$', '*', '+', '?', Char.ofNat 123, Char.ofNat 125,
   '[', ']', '\\', '|', '(', ')']

/-- Row A of the spec's end-to-end scenario (section 8). -/
def recA : Record :=
  { competitor := some "A", Sex := "Men", Discipline := "100m",
    Nationality := "USA", mark_numeric := some (479 / 50 : ℚ),
    Probability_World_Record_Breaker := some (91 / 100 : ℚ),
    Predicted_World_Record_Breaker := some true,
    World_Record_Correct := some true,
    Actual_World_Record_Breaker := some true,
    Actual_National_Record_Breaker := some true,
    Actual_Personal_Best_Breaker := some true }

/-- Row B of the spec's end-to-end scenario (section 8): its actual flags are
unknown. -/
def recB : Record :=
  { competitor := some "B", Sex := "Women", Discipline := "100m",
    Nationality := "JAM", mark_numeric := some (1049 / 100 : ℚ),
    Probability_World_Record_Breaker := some (2 / 5 : ℚ),
    Predicted_World_Record_Breaker := some false,
    World_Record_Correct := none,
    Actual_World_Record_Breaker := none,
    Actual_National_Record_Breaker := none,
    Actual_Personal_Best_Breaker := none }

/-- A row named Maria, used for the case-insensitive search examples. -/
def recM : Record :=
  { competitor := some "Maria", Sex := "Women", Discipline := "200m",
    Nationality := "GER", mark_numeric := some (21 : ℚ),
    Probability_World_Record_Breaker := some 0,
    Predicted_World_Record_Breaker := some false,
    World_Record_Correct := some false,
    Actual_World_Record_Breaker := some false,
    Actual_National_Record_Breaker := some true,
    Actual_Personal_Best_Breaker := some false }

/-- A row whose competitor text "xyz" contains no dot, used to contrast regex
search with substring search. -/
def recX : Record :=
  { competitor := some "xyz", Sex := "Men", Discipline := "100m",
    Nationality := "USA", mark_numeric := none,
    Probability_World_Record_Breaker := none,
    Predicted_World_Record_Breaker := none,
    World_Record_Correct := none,
    Actual_World_Record_Breaker := none,
    Actual_National_Record_Breaker := some false,
    Actual_Personal_Best_Breaker := none }

/-- A row with a missing competitor value. -/
def recN : Record :=
  { competitor := none, Sex := "Men", Discipline := "100m",
    Nationality := "KEN", mark_numeric := some (10 : ℚ),
    Probability_World_Record_Breaker := some (1 / 2 : ℚ),
    Predicted_World_Record_Breaker := some true,
    World_Record_Correct := some false,
    Actual_World_Record_Breaker := some false,
    Actual_National_Record_Breaker := some false,
    Actual_Personal_Best_Breaker := some true }

theorem markLE_trans : ∀ a b c : Record, markLE a b → markLE b c → markLE a c := by
  intro a b c hab hbc
  unfold markLE at *
  cases ha : a.mark_numeric <;> cases hb : b.mark_numeric <;>
    cases hc : c.mark_numeric <;> simp_all
  exact le_trans hab hbc

theorem markLE_total : ∀ a b : Record, markLE a b || markLE b a := by
  intro a b
  unfold markLE
  cases a.mark_numeric <;> cases b.mark_numeric <;> simp
  exact le_total _ _

theorem probGE_trans : ∀ a b c : Record, probGE a b → probGE b c → probGE a c := by
  intro a b c hab hbc
  unfold probGE at *
  cases ha : a.Probability_World_Record_Breaker <;>
    cases hb : b.Probability_World_Record_Breaker <;>
      cases hc : c.Probability_World_Record_Breaker <;> simp_all
  exact le_trans hbc hab

theorem probGE_total : ∀ a b : Record, probGE a b || probGE b a := by
  intro a b
  unfold probGE
  cases a.Probability_World_Record_Breaker <;>
    cases b.Probability_World_Record_Breaker <;> simp
  exact le_total _ _

theorem sum_skipna_eq_length (xs : List (Option Bool)) :
    sum_skipna xs = (xs.filter (fun x => x == some true)).length := by
  induction xs with
  | nil => rfl
  | cons x xs ih =>
    cases x with
    | none => simpa [sum_skipna, List.filter_cons] using ih
    | some b =>
      cases b <;> simp [sum_skipna, List.filter_cons] <;> simpa [sum_skipna] using ih

theorem sum_skipna_cons (x : Option Bool) (xs : List (Option Bool)) :
    sum_skipna (x :: xs) = sum_skipna xs + (if x = some true then 1 else 0) := by
  cases x with
  | none => simp [sum_skipna]
  | some b => cases b <;> simp [sum_skipna]

theorem sum_skipna_map_eq (rows : List Record) (col : Record → Option Bool) :
    sum_skipna (rows.map col) = (rows.filter (fun r => col r == some true)).length := by
  rw [sum_skipna_eq_length, List.filter_map]
  simp [Function.comp_def]

theorem mean_skipna_eq_none_iff (xs : List (Option ℚ)) :
    mean_skipna xs = none ↔ ∀ x ∈ xs, x = none := by
  constructor
  · intro hm
    by_cases h : xs.filterMap id = []
    · simpa using List.filterMap_eq_nil_iff.mp h
    · simp [mean_skipna, h] at hm
  · intro hall
    have h : xs.filterMap id = [] := List.filterMap_eq_nil_iff.mpr (by simpa using hall)
    simp [mean_skipna, h]

/-- C1: for every record store and every filter criteria, the filtered result
is a sublist of the store (no row fabricated, none duplicated, original
relative order preserved), and a row is kept exactly when it satisfies the
conjunction of the active predicates (sex membership, discipline membership,
nationality membership when that selection is non-empty, and the name search
when the search text is non-empty). -/
theorem C1_filter_subset_order_and (df : List Record) (c : Criteria) :
    (filtered_df df c).Sublist df ∧
    (∀ r : Record, (filtered_df df c).count r ≤ df.count r) ∧
    (∀ r : Record, r ∈ filtered_df df c ↔
      r ∈ df ∧ c.selected_sex.contains r.Sex ∧ c.selected_discipline.contains r.Discipline ∧
      (c.selected_nationality ≠ [] → c.selected_nationality.contains r.Nationality) ∧
      (c.search_name ≠ "" → str_contains c.search_name r.competitor)) := by
  have hsub : (filtered_df df c).Sublist df := by
    rw [filtered_df_eq_filter]; exact List.filter_sublist df
  refine ⟨hsub, fun r => hsub.count_le r, fun r => ?_⟩
  rw [filtered_df_eq_filter, List.mem_filter]
  unfold rowPred
  by_cases hn : c.selected_nationality = [] <;>
    by_cases hs : c.search_name = "" <;>
      simp [hn, hs, and_assoc]

/-- C2: an empty sex selection or an empty discipline selection yields an
empty result, while an empty nationality selection behaves as if no
nationality predicate existed (here: as if every nationality occurring in the
store had been selected). -/
theorem C2_empty_selection_asymmetry (df : List Record) (c : Criteria) :
    (c.selected_sex = [] → filtered_df df c = []) ∧
    (c.selected_discipline = [] → filtered_df df c = []) ∧
    (c.selected_nationality = [] →
      filtered_df df c =
        filtered_df df { c with selected_nationality := df.map (fun r => r.Nationality) }) := by
  refine ⟨?_, ?_, ?_⟩
  · intro h
    rw [filtered_df_eq_filter]
    refine List.filter_eq_nil_iff.mpr (fun r _ => ?_)
    simp [rowPred, h]
  · intro h
    rw [filtered_df_eq_filter]
    refine List.filter_eq_nil_iff.mpr (fun r _ => ?_)
    simp [rowPred, h]
  · intro h
    rw [filtered_df_eq_filter, filtered_df_eq_filter]
    refine List.filter_congr (fun r hr => ?_)
    have hex : ∃ a ∈ df, a.Nationality = r.Nationality := ⟨r, hr, rfl⟩
    by_cases hd : df.map (fun r => r.Nationality) = []
    · exact absurd hr (by simp [List.map_eq_nil_iff.mp hd])
    · simp [rowPred, h, hd, hex]

/-- C9: filtering is idempotent; applying the pipeline a second time with the
same criteria to its own result changes nothing, so any sum_true aggregate of
the re-filtered result equals that of the once-filtered result. -/
theorem C9_filter_idempotent (df : List Record) (c : Criteria) :
    filtered_df (filtered_df df c) c = filtered_df df c ∧
    ∀ col : Record → Option Bool,
      sum_skipna ((filtered_df (filtered_df df c) c).map col) =
        sum_skipna ((filtered_df df c).map col) := by
  have h : filtered_df (filtered_df df c) c = filtered_df df c := by
    rw [filtered_df_eq_filter df c, filtered_df_eq_filter, List.filter_filter]
    simp [Bool.and_self]
  exact ⟨h, fun col => by rw [h]⟩

/-- C10: the empty search text is treated as the absence of a name criterion;
the name predicate is skipped entirely, so membership in the result does not
depend on the competitor value at all (in particular a row with a missing
competitor value can be kept). -/
theorem C10_empty_search_skips_name (df : List Record) (c : Criteria)
    (h : c.search_name = "") :
    ∀ r : Record, r ∈ filtered_df df c ↔
      r ∈ df ∧ c.selected_sex.contains r.Sex ∧ c.selected_discipline.contains r.Discipline ∧
      (c.selected_nationality ≠ [] → c.selected_nationality.contains r.Nationality) := by
  intro r
  rw [filtered_df_eq_filter, List.mem_filter]
  unfold rowPred
  by_cases hn : c.selected_nationality = [] <;> simp [h, hn, and_assoc]

theorem C10_witness :
    recN ∈ filtered_df [recN] (Criteria.mk "" ["Men"] ["100m"] []) :=
  (C10_empty_search_skips_name [recN] (Criteria.mk "" ["Men"] ["100m"] []) rfl recN).mpr
    ⟨List.mem_cons_self recN [], rfl, rfl, fun hc => absurd rfl hc⟩

/-- C3: for every subset and every tri-state boolean column, the skipna sum of
the column counts exactly the rows whose value is true; a row whose value is
false and a row whose value is unknown both contribute nothing, so an unknown
flag is never counted as false/zero by this aggregate. -/
theorem C3_sum_true_counts_true (rows : List Record) (col : Record → Option Bool) :
    sum_skipna (rows.map col) = (rows.filter (fun r => col r == some true)).length ∧
    (∀ (l₁ l₂ : List Record) (x : Record), col x ≠ some true →
      sum_skipna ((l₁ ++ x :: l₂).map col) = sum_skipna ((l₁ ++ l₂).map col)) := by
  refine ⟨sum_skipna_map_eq rows col, fun l₁ l₂ x hx => ?_⟩
  rw [sum_skipna_map_eq, sum_skipna_map_eq, List.filter_append, List.filter_append,
    List.filter_cons]
  simp [hx]

theorem C3_witness :
    sum_skipna ([recA, recB].map (fun r => r.Predicted_World_Record_Breaker)) =
      ([recA, recB].filter (fun r => r.Predicted_World_Record_Breaker == some true)).length ∧
    sum_skipna (([recA] ++ recB :: []).map (fun r : Record => r.Actual_World_Record_Breaker)) =
      sum_skipna (([recA] ++ []).map (fun r : Record => r.Actual_World_Record_Breaker)) :=
  ⟨(C3_sum_true_counts_true [recA, recB] (fun r => r.Predicted_World_Record_Breaker)).1,
   (C3_sum_true_counts_true [recA, recB] (fun r => r.Actual_World_Record_Breaker)).2
     [recA] [] recB (by simp [recB])⟩

/-- C4: accuracy is computed only over the rows whose actual value is not
unknown; it is the "not available" sentinel exactly when no such row exists,
inserting or removing a row with unknown actual value never changes it, and on
a non-empty denominator it equals matches divided by denominator times 100. -/
theorem C4_accuracy_ignores_unknown (rows : List Record) (pred act : Record → Option Bool) :
    (accuracy rows pred act = none ↔ ∀ r ∈ rows, act r = none) ∧
    (∀ (l₁ l₂ : List Record) (x : Record), act x = none →
      accuracy (l₁ ++ x :: l₂) pred act = accuracy (l₁ ++ l₂) pred act) ∧
    (rows.filter (fun r => (act r).isSome) ≠ [] →
      accuracy rows pred act =
        some ((((rows.filter (fun r => (act r).isSome)).filter
            (fun r => pred r == act r)).length : ℚ)
          / ((rows.filter (fun r => (act r).isSome)).length : ℚ) * 100)) := by
  refine ⟨?_, fun l₁ l₂ x hx => ?_, fun hne => ?_⟩
  · unfold accuracy
    by_cases h : rows.filter (fun r => (act r).isSome) = []
    · rw [if_pos h]
      refine ⟨fun _ r hr => ?_, fun _ => rfl⟩
      simpa using List.filter_eq_nil_iff.mp h r hr
    · rw [if_neg h]
      refine ⟨fun hsome => absurd hsome (by simp), fun hall => ?_⟩
      exact (h (List.filter_eq_nil_iff.mpr (fun r hr => by simp [hall r hr]))).elim
  · unfold accuracy
    rw [List.filter_append, List.filter_append, List.filter_cons]
    simp [hx]
  · unfold accuracy
    rw [if_neg hne]

theorem C4_witness :
    accuracy ([recA] ++ recB :: []) (fun r => r.Predicted_World_Record_Breaker)
        (fun r => r.Actual_World_Record_Breaker) =
      accuracy ([recA] ++ []) (fun r => r.Predicted_World_Record_Breaker)
        (fun r => r.Actual_World_Record_Breaker) :=
  (C4_accuracy_ignores_unknown [recA] (fun r => r.Predicted_World_Record_Breaker)
      (fun r => r.Actual_World_Record_Breaker)).2.1
    [recA] [] recB (by simp [recB])

/-- C5 counterexample: the literal "Maybe" is not one of "Yes"/"No"/"Unknown",
yet normalization raises no error: it silently maps the column to the same
missing value that "Unknown" is mapped to, contradicting the claim that any
other literal value causes an InvalidCategoricalValue error instead of silent
coercion. -/
theorem C5_counterexample :
    normalizeColumn ["Maybe"] = [none] ∧
    normalizeColumn ["Maybe"] = normalizeColumn ["Unknown"] :=
  ⟨rfl, rfl⟩

/-- C5 amended: normalization maps "Yes" to true, "No" to false, and every
other literal value (including "Unknown") silently to the missing value none;
it is total (no error is ever raised, the column keeps its length) and a cell
holding an unrecognized literal contributes nothing to a sum over the column,
exactly like an unknown. -/
theorem C5_normalization_silently_coerces (xs : List String) :
    (normalizeColumn xs).length = xs.length ∧
    (∀ s ∈ xs, s ≠ "Yes" → s ≠ "No" → normalizeCell s = none) ∧
    normalizeCell "Yes" = some true ∧
    normalizeCell "No" = some false ∧
    sum_skipna (normalizeColumn xs) = xs.count "Yes" := by
  refine ⟨by simp [normalizeColumn], fun s _ h1 h2 => ?_, rfl, rfl, ?_⟩
  · simp [normalizeCell, h1, h2]
  · induction xs with
    | nil => rfl
    | cons s ss ih =>
      have hcons : normalizeColumn (s :: ss) = normalizeCell s :: normalizeColumn ss := rfl
      rw [hcons, sum_skipna_cons, List.count_cons, ih]
      by_cases h1 : s = "Yes"
      · simp [normalizeCell, h1]
      · by_cases h2 : s = "No" <;> simp [normalizeCell, h1, h2]

theorem C5_witness :
    (normalizeColumn ["Yes", "No", "Maybe", "Unknown"]).length =
      (["Yes", "No", "Maybe", "Unknown"] : List String).length ∧
    normalizeCell "Maybe" = none ∧
    sum_skipna (normalizeColumn ["Yes", "No", "Maybe", "Unknown"]) =
      (["Yes", "No", "Maybe", "Unknown"] : List String).count "Yes" :=
  ⟨(C5_normalization_silently_coerces ["Yes", "No", "Maybe", "Unknown"]).1,
   (C5_normalization_silently_coerces ["Yes", "No", "Maybe", "Unknown"]).2.1
     "Maybe" (by simp) (by simp) (by simp),
   (C5_normalization_silently_coerces ["Yes", "No", "Maybe", "Unknown"]).2.2.2.2⟩

/-- C6 counterexample: on the empty subset the Key Metrics block is skipped
wholesale, so no metric is reported at all; in particular count is not
reported as 0, contradicting the claim that count is always defined. -/
theorem C6_counterexample :
    keyMetrics ([] : List Record) = none ∧
    ∀ m : KeyMetrics, keyMetrics ([] : List Record) ≠ some m := by
  exact ⟨rfl, fun m h => by simp [keyMetrics] at h⟩

/-- C6 amended: on a non-empty subset the key metrics are all produced in one
record, with count equal to the row count, the mean being the missing sentinel
exactly when every value is missing, and the boolean sums counting true rows;
the breakdown counts are independently fail-soft, reporting the "N/A" sentinel
exactly when every value of their flag is unknown; but on the empty subset the
whole Key Metrics block is skipped rather than reporting count = 0. -/
theorem C6_metrics_fail_soft (fdf : List Record) (h : fdf ≠ []) :
    ∃ m : KeyMetrics, keyMetrics fdf = some m ∧
      m.total_records = fdf.length ∧
      (m.avg_mark = none ↔ ∀ r ∈ fdf, r.mark_numeric = none) ∧
      m.pred_world_count =
        (fdf.filter (fun r => r.Predicted_World_Record_Breaker == some true)).length ∧
      m.actual_world_count =
        (fdf.filter (fun r => r.Actual_World_Record_Breaker == some true)).length ∧
      (nat_yes_count fdf = none ↔ ∀ r ∈ fdf, r.Actual_National_Record_Breaker = none) ∧
      (pb_yes_count fdf = none ↔ ∀ r ∈ fdf, r.Actual_Personal_Best_Breaker = none) := by
  refine ⟨{ total_records := fdf.length,
            avg_mark := mean_skipna (fdf.map (fun r => r.mark_numeric)),
            avg_prob := mean_skipna (fdf.map (fun r => r.Probability_World_Record_Breaker)),
            pred_world_count := sum_skipna (fdf.map (fun r => r.Predicted_World_Record_Breaker)),
            actual_world_count := sum_skipna (fdf.map (fun r => r.Actual_World_Record_Breaker)) },
    ?_, rfl, ?_, sum_skipna_map_eq fdf _, sum_skipna_map_eq fdf _, ?_, ?_⟩
  · simp [keyMetrics, h]
  · exact (mean_skipna_eq_none_iff _).trans (by simp)
  · unfold nat_yes_count
    by_cases hf : fdf.filter (fun r => r.Actual_National_Record_Breaker.isSome) = []
    · rw [if_pos hf]
      refine ⟨fun _ r hr => ?_, fun _ => rfl⟩
      simpa using List.filter_eq_nil_iff.mp hf r hr
    · rw [if_neg hf]
      refine ⟨fun hsome => absurd hsome (by simp), fun hall => ?_⟩
      exact (hf (List.filter_eq_nil_iff.mpr (fun r hr => by simp [hall r hr]))).elim
  · unfold pb_yes_count
    by_cases hf : fdf.filter (fun r => r.Actual_Personal_Best_Breaker.isSome) = []
    · rw [if_pos hf]
      refine ⟨fun _ r hr => ?_, fun _ => rfl⟩
      simpa using List.filter_eq_nil_iff.mp hf r hr
    · rw [if_neg hf]
      refine ⟨fun hsome => absurd hsome (by simp), fun hall => ?_⟩
      exact (hf (List.filter_eq_nil_iff.mpr (fun r hr => by simp [hall r hr]))).elim

theorem C6_witness :
    Option.map (fun m => m.total_records) (keyMetrics [recA]) = some 1 := by
  obtain ⟨m, hm, hc, -⟩ := C6_metrics_fail_soft [recA] (by simp)
  rw [hm]
  simp [hc]

theorem sortHeadSpec_exists (flag : Record → Option Bool) (le : Record → Record → Bool)
    (n : Nat) (fdf : List Record)
    (trans : ∀ a b c : Record, le a b → le b c → le a c)
    (total : ∀ a b : Record, le a b || le b a) :
    ∃ out : List Record, sortHeadSpec flag le n fdf out :=
  ⟨((qualifying flag fdf).mergeSort le).take n,
   (qualifying flag fdf).mergeSort le,
   ⟨(List.mergeSort_perm _ le).symm,
    by simpa using List.sorted_mergeSort trans total (qualifying flag fdf)⟩,
   rfl⟩

theorem sortHeadSpec_props (flag : Record → Option Bool) (le : Record → Record → Bool)
    (n : Nat) (fdf out : List Record) (h : sortHeadSpec flag le n fdf out) :
    (∀ r ∈ out, flag r = some true) ∧
    out.Pairwise (fun a b => le a b = true) ∧
    out.length = min n (qualifying flag fdf).length ∧
    (qualifying flag fdf = [] → out = []) := by
  obtain ⟨s, ⟨hperm, hsort⟩, hout⟩ := h
  subst hout
  refine ⟨fun r hr => ?_, List.Pairwise.sublist (List.take_sublist n s) hsort, ?_, fun hq => ?_⟩
  · have hs : r ∈ s := List.mem_of_mem_take hr
    have hqm : r ∈ qualifying flag fdf := hperm.mem_iff.mpr hs
    simpa using List.of_mem_filter hqm
  · rw [List.length_take, hperm.length_eq]
  · have hsnil : s = [] := ((hq ▸ hperm).symm).eq_nil
    simp [hsnil]

/-- C7 counterexample: on the two-row store recT1, recT2 (both qualifying for
the national-record table, tied on mark_numeric, recT1 first), the output
that lists recT2 before recT1 satisfies everything the code guarantees — the
source sorts with sort_values' default unstable quicksort, whose order among
equal keys is implementation-defined, so any sorted permutation of the
qualifying rows is admissible — yet its tie is not in original row order;
hence "ties broken by original row order (stable sort)" is not a property of
the code. -/
theorem C7_counterexample :
    sortHeadSpec (fun r => r.Actual_National_Record_Breaker) markLE 10
      [recT1, recT2] [recT2, recT1] ∧
    markLE recT1 recT2 = true ∧ markLE recT2 recT1 = true ∧
    ¬ [recT2, recT1].Sublist [recT1, recT2] := by
  refine ⟨⟨[recT2, recT1], ⟨?_, ?_⟩, rfl⟩, rfl, rfl, ?_⟩
  · show List.Perm (qualifying _ [recT1, recT2]) [recT2, recT1]
    have hq : qualifying (fun r => r.Actual_National_Record_Breaker) [recT1, recT2] =
        [recT1, recT2] := rfl
    rw [hq]
    exact List.Perm.swap recT2 recT1 []
  · exact List.pairwise_pair.mpr rfl
  · intro h
    have heq := h.eq_of_length rfl
    have hrec : recT2 = recT1 := by injection heq
    exact absurd hrec (by decide)

/-- C7 amended: for every admissible output of each ranked table — the code
guarantees only some sorted permutation of the qualifying rows, truncated to
the first 10 — every returned row has the required flag true, the rows are
sorted by the table's key (non-decreasing in mark_numeric for the ascending
tables), the length is the minimum of 10 and the number of qualifying rows,
and the output is empty rather than an error when no row qualifies; such an
output always exists, but the order of rows with equal keys is
implementation-defined rather than original row order. -/
theorem C7_ranked_tables_spec (fdf : List Record) :
    (∃ out : List Record,
      sortHeadSpec (fun r => r.Actual_National_Record_Breaker) markLE 10 fdf out) ∧
    (∀ out : List Record,
      sortHeadSpec (fun r => r.Actual_National_Record_Breaker) markLE 10 fdf out →
      (∀ r ∈ out, r.Actual_National_Record_Breaker = some true) ∧
      out.Pairwise (fun a b => markLE a b = true) ∧
      out.length = min 10 (qualifying (fun r => r.Actual_National_Record_Breaker) fdf).length ∧
      (qualifying (fun r => r.Actual_National_Record_Breaker) fdf = [] → out = [])) ∧
    (∀ out : List Record,
      sortHeadSpec (fun r => r.Actual_Personal_Best_Breaker) markLE 10 fdf out →
      (∀ r ∈ out, r.Actual_Personal_Best_Breaker = some true) ∧
      out.Pairwise (fun a b => markLE a b = true) ∧
      out.length = min 10 (qualifying (fun r => r.Actual_Personal_Best_Breaker) fdf).length ∧
      (qualifying (fun r => r.Actual_Personal_Best_Breaker) fdf = [] → out = [])) ∧
    (∀ out : List Record,
      sortHeadSpec (fun r => r.Predicted_World_Record_Breaker) probGE 10 fdf out →
      (∀ r ∈ out, r.Predicted_World_Record_Breaker = some true) ∧
      out.Pairwise (fun a b => probGE a b = true) ∧
      out.length = min 10 (qualifying (fun r => r.Predicted_World_Record_Breaker) fdf).length ∧
      (qualifying (fun r => r.Predicted_World_Record_Breaker) fdf = [] → out = [])) :=
  ⟨sortHeadSpec_exists _ _ _ _ markLE_trans markLE_total,
   fun out h => sortHeadSpec_props _ _ _ _ out h,
   fun out h => sortHeadSpec_props _ _ _ _ out h,
   fun out h => sortHeadSpec_props _ _ _ _ out h⟩

theorem matchHere_lit (needle : List Char) :
    ∀ s : List Char, matchHere (needle.map RTok.lit) s = isPrefixCI needle s := by
  induction needle with
  | nil => intro s; cases s <;> rfl
  | cons a as ih =>
    intro s
    cases s with
    | nil => rfl
    | cons b bs => simp [matchHere, isPrefixCI, tokMatches, ih]

theorem reSearch_lit (needle s : List Char) :
    reSearch (needle.map RTok.lit) s = substrCI needle s := by
  induction s with
  | nil => simp [reSearch, substrCI, matchHere_lit]
  | cons c cs ih => simp [reSearch, substrCI, matchHere_lit, ih]

theorem compilePat_of_no_specials (pat : String)
    (hp : ∀ ch ∈ pat.data, ch ∉ regexSpecials) :
    compilePat pat = pat.data.map RTok.lit := by
  unfold compilePat
  refine List.map_congr_left (fun ch hch => ?_)
  have hdot : ch ≠ '.' := by
    intro he
    exact hp ch hch (by rw [he]; simp [regexSpecials])
  simp [hdot]

/-- The filter criteria whose search text is the single dot character. -/
def critDot : Criteria :=
  { search_name := ".", selected_sex := ["Men"], selected_discipline := ["100m"],
    selected_nationality := [] }

/-- C8 counterexample: with search text "." the row whose competitor is "xyz"
is kept by the name filter even though "xyz" does not contain the substring
".", because the search text is interpreted as a regular expression in which
the dot matches any character; so "row kept iff competitor contains the
substring" is false. -/
theorem C8_counterexample :
    filtered_df [recX] critDot = [recX] ∧
    substrCI (String.data ".") (String.data "xyz") = false :=
  ⟨rfl, rfl⟩

/-- C8 amended: the name filter interprets the search text as a
case-insensitive regular expression searched anywhere in the competitor value
(so for search texts containing no regex metacharacter it coincides with
case-insensitive substring containment), and a missing competitor value never
matches any search text. -/
theorem C8_name_search_is_regex (pat : String)
    (hp : ∀ ch ∈ pat.data, ch ∉ regexSpecials) :
    (∀ s : String, str_contains pat (some s) = substrCI pat.data s.data) ∧
    str_contains pat none = false := by
  refine ⟨fun s => ?_, rfl⟩
  show reSearch (compilePat pat) s.data = substrCI pat.data s.data
  rw [compilePat_of_no_specials pat hp, reSearch_lit]

theorem C8_witness :
    str_contains "a" (some "Maria") = substrCI (String.data "a") (String.data "Maria") ∧
    str_contains "a" none = false :=
  ⟨(C8_name_search_is_regex "a" (by decide)).1 "Maria",
   (C8_name_search_is_regex "a" (by decide)).2⟩

end TrackApp
